import Mathlib

/-!
# Verification of the elderly-monitoring dashboard

Shallow embedding, in Lean 4, of the three Python source files of the
repository (`ai_processor.py`, `fetch_data.py`, `minimal_app.py`) together
with proofs of the testable properties stated in the specification.

The embedding conventions:

* `SheetData` (a Python list of lists of cell strings) is `List (List String)`.
* Python string concatenation loops (`data_context += ...`) become folds or
  structural recursions producing the same string.
* Attribute probing (`hasattr(x, 'text')`) becomes an `Option` field.
* The network call is an oracle `generate : String → GenResult` passed in
  explicitly; the traced variant also records every prompt actually sent,
  so "no network call is made" is expressible as an empty trace.
* Exceptions are values (`PyException`, `GenResult.raise`); the Python
  functions under verification never let them escape, so their embeddings
  are total functions returning strings / result records.
-/

namespace ElderlyMonitoring

/-! ## `ai_processor.py`: prompt construction (`get_ai_response`, lines 59-81) -/

/-- Python `", ".join(map(str, row))` for a row of cells (cells are already strings,
so `str` is the identity). -/
def joinRow (row : List String) : String :=
  String.intercalate ", " row

/-- The loop `for row in sheet_data[1:6]: if row: data_context += ", ".join(map(str, row)) + "\n"`,
applied to the (already sliced) list of data rows. -/
def rowsLines : List (List String) → String
  | [] => ""
  | r :: rs => (if r = [] then "" else joinRow r ++ "\n") ++ rowsLines rs

/-- The `data_context` string built by `get_ai_response` (ai_processor.py
lines 60-71): fixed heading, then header line (when the header row is
non-empty), then up to five data rows (`sheet_data[1:6]`), skipping empty
rows, then the separator; for empty `sheet_data` the fixed
"no data available" line instead. -/
def data_context (sheet_data : List (List String)) : String :=
  "Datos de la encuesta:\n" ++
    (match sheet_data with
     | [] => "No hay datos disponibles de la encuesta.\n"
     | header :: rows =>
       (if header = [] then "" else joinRow header ++ "\n") ++
         rowsLines (rows.take 5)) ++
    "\n---\n"

/-- The fixed instruction preamble of the prompt (ai_processor.py lines 75-78). -/
def promptPreamble : String :=
  "Eres un asistente de IA que ayuda a analizar datos de encuestas sobre el bienestar de personas mayores. " ++
  "Responde a las preguntas basándote ÚNICAMENTE en los datos de la encuesta proporcionados. " ++
  "Si la respuesta no se encuentra en los datos, indica que no tienes suficiente información basada en los datos proporcionados. " ++
  "Responde en ESPAÑOL.\n\n"

/-- The `full_prompt` string assembled by `get_ai_response`
(ai_processor.py lines 74-81). -/
def full_prompt (question : String) (sheet_data : List (List String)) : String :=
  promptPreamble ++ data_context sheet_data ++ "Pregunta del usuario: " ++ question

/-- One excerpt line for a row, as in the spec's description: the row
comma-joined, newline terminated. -/
def excerptLine (row : List String) : String :=
  joinRow row ++ "\n"

/-- The data excerpt exactly as claim C1 words it ("the comma-joined header
line followed by each data row comma-joined in original cell order"):
one line for the header and one line per data row, with no row skipped.
This is the spec-side definition that C1 compares against the code. -/
def excerptClaimedC1 (sheet_data : List (List String)) : String :=
  match sheet_data with
  | [] => ""
  | header :: rows => excerptLine header ++ String.join (rows.map excerptLine)

/-- The part of `data_context` between the fixed heading and the separator:
the data excerpt proper. -/
def dataExcerpt (sheet_data : List (List String)) : String :=
  match sheet_data with
  | [] => "No hay datos disponibles de la encuesta.\n"
  | header :: rows =>
    (if header = [] then "" else joinRow header ++ "\n") ++ rowsLines (rows.take 5)

/-! ## `ai_processor.py`: response objects and text extraction (lines 108-128)

Attribute probing (`hasattr`) is modelled with `Option` fields: `none` means
the attribute is absent. Python truthiness of a list (`and response.candidates`)
is non-emptiness. -/

/-- A content part of a provider response; may or may not carry a `text`
attribute. -/
structure GPart where
  text : Option String
deriving DecidableEq

/-- A candidate's `content` attribute; may or may not carry a `parts` list. -/
structure GContent where
  parts : Option (List GPart)
deriving DecidableEq

/-- A response candidate; may or may not carry a `content` attribute. -/
structure GCandidate where
  content : Option GContent
deriving DecidableEq

/-- A provider response object: any of the attributes `text`, `parts`,
`candidates` may be present or absent. -/
structure GeminiResponse where
  text : Option String
  parts : Option (List GPart)
  candidates : Option (List GCandidate)
deriving DecidableEq

/-- The loop `for part in response.parts: if hasattr(part, 'text'): response_text += part.text`
starting from accumulator `acc`. -/
def partsTextFrom (acc : String) (ps : List GPart) : String :=
  ps.foldl (fun a p => match p.text with | some t => a ++ t | none => a) acc

/-- The nested candidates loop (ai_processor.py lines 119-123), starting from
accumulator `acc`. -/
def candidatesTextFrom (acc : String) (cs : List GCandidate) : String :=
  cs.foldl
    (fun a c =>
      match c.content with
      | some ct =>
        match ct.parts with
        | some ps => partsTextFrom a ps
        | none => a
      | none => a)
    acc

/-- Spec-side view of a parts list: the concatenation of the text fragments
of the parts, in order, an empty fragment for a part without text. -/
def partFragments (ps : List GPart) : String :=
  String.join (ps.map (fun p => p.text.getD ""))

/-- Spec-side view of a candidates list: the concatenation, in structural
order, of every text fragment discoverable through `content.parts`. -/
def candidateFragments (cs : List GCandidate) : String :=
  String.join (cs.map (fun c =>
    match c.content with
    | some ct =>
      match ct.parts with
      | some ps => partFragments ps
      | none => ""
    | none => ""))

/-- The response-text extraction of `get_ai_response` (ai_processor.py lines
108-124): direct `text` attribute first; else the `parts` list; else a
non-empty `candidates` list; else the accumulator is left at `""`. -/
def extract_text (r : GeminiResponse) : String :=
  match r.text with
  | some t => t
  | none =>
    match r.parts with
    | some ps => partsTextFrom "" ps
    | none =>
      match r.candidates with
      | some cs => if cs.isEmpty then "" else candidatesTextFrom "" cs
      | none => ""

/-! ## `ai_processor.py`: the full `get_ai_response` -/

/-- The module-level client state of `ai_processor.py` (lines 9-10):
the flag `google_api_key_loaded` and the (possibly `None`) model object.
The model object itself carries no data our claims depend on. -/
structure AIClient where
  google_api_key_loaded : Bool
  gemini_model : Option Unit
deriving DecidableEq

/-- A Python exception as observed by the `except` block of
`get_ai_response`: `str(e)`, the optional `message` attribute, and the
`args` tuple (rendered as strings, as the code applies `str` to `args[0]`). -/
structure PyException where
  str : String
  message : Option String
  args : List String
deriving DecidableEq

/-- Outcome of the `gemini_model.generate_content(...)` call: a response
object, or an exception raised during the call. -/
inductive GenResult where
  | ok (r : GeminiResponse)
  | raise (e : PyException)

/-- The `error_details` computation of the `except` block (ai_processor.py
lines 133-137). -/
def error_details (e : PyException) : String :=
  match e.message with
  | some m => m
  | none =>
    match e.args with
    | a :: _ => a
    | [] => ""

/-- The function `get_ai_response` (ai_processor.py lines 44-138), with the network call
as an explicit oracle `generate`; returns the result string together with the
trace of prompts actually sent to the completion endpoint (so "no network
call" is an empty trace). -/
def get_ai_response_traced (client : AIClient) (generate : String → GenResult)
    (question : String) (sheet_data : List (List String)) : String × List String :=
  if !client.google_api_key_loaded || client.gemini_model = none then
    ("Error: El cliente de Google Gemini no está inicializado correctamente. Verifica la clave API.", [])
  else
    let p := full_prompt question sheet_data
    match generate p with
    | .ok r => (extract_text r, [p])
    | .raise e =>
      ("Error al comunicar con Google Gemini: " ++ e.str ++ " (" ++ error_details e ++ ")", [p])

/-- The return value of `get_ai_response`. -/
def get_ai_response (client : AIClient) (generate : String → GenResult)
    (question : String) (sheet_data : List (List String)) : String :=
  (get_ai_response_traced client generate question sheet_data).1

/-! ## JSON interchange: `json.dump(..., ensure_ascii=False, indent=4)` and `json.load`

`fetch_data.py` line 56-57 serializes the array-of-arrays with
`json.dump(all_values, f, ensure_ascii=False, indent=4)`; `minimal_app.py`
lines 70-71 read it back with `json.load`. We embed the serializer exactly
(CPython's escape table for `ensure_ascii=False`: backslash, double quote,
the five short control escapes, `\u00xx` for the remaining control
characters below 0x20, everything else — including non-ASCII — literal;
indentation of 4 spaces per nesting level, `,` item separator followed by
a newline and indent), and a JSON reader for the interchange format
(arrays of arrays of strings, the only shape the file ever holds). -/

/-- Lowercase hexadecimal digit, as produced by CPython's `'\\u{0:04x}'.format(i)`. -/
def hexDigit (n : Nat) : Char :=
  if n < 10 then Char.ofNat (48 + n) else Char.ofNat (87 + n)

/-- CPython `json` escape of one character with `ensure_ascii=False`
(the `ESCAPE` regex `[\\"\x00-\x1f]` and `ESCAPE_DCT`). -/
def escapeChar (c : Char) : List Char :=
  if c = '\\' then ['\\', '\\']
  else if c = '"' then ['\\', '"']
  else if c = Char.ofNat 8 then ['\\', 'b']
  else if c = Char.ofNat 12 then ['\\', 'f']
  else if c = '\n' then ['\\', 'n']
  else if c = Char.ofNat 13 then ['\\', 'r']
  else if c = '\t' then ['\\', 't']
  else if c.toNat < 32 then
    ['\\', 'u', '0', '0', hexDigit (c.toNat / 16), hexDigit (c.toNat % 16)]
  else [c]

/-- JSON string literal for `s`, as `json.dump` emits it. -/
def dumpString (s : String) : List Char :=
  '"' :: (s.data.flatMap escapeChar ++ ['"'])

/-- Newline followed by `k` spaces: the separator `'\n' + ' ' * indent * level`
that `json.dump` inserts at indent width 4. -/
def nlIndent (k : Nat) : List Char :=
  '\n' :: List.replicate k ' '

/-- Everything of a dumped row after its opening bracket. -/
def dumpRowBody : List String → List Char
  | [] => [']']
  | s :: ss =>
    nlIndent 8 ++ dumpString s ++
      ss.flatMap (fun x => ',' :: (nlIndent 8 ++ dumpString x)) ++
      nlIndent 4 ++ [']']

/-- One row (inner array, nesting level 1) as `json.dump(..., indent=4)`
emits it: `[]` when empty, otherwise each string on its own line indented
by 8 spaces, closing bracket indented by 4. -/
def dumpRow (row : List String) : List Char :=
  '[' :: dumpRowBody row

/-- Everything of the dumped array-of-arrays after its opening bracket. -/
def dumpSheetBody : List (List String) → List Char
  | [] => [']']
  | r :: rs =>
    nlIndent 4 ++ dumpRow r ++
      rs.flatMap (fun x => ',' :: (nlIndent 4 ++ dumpRow x)) ++
      nlIndent 0 ++ [']']

/-- The whole file body `json.dump(all_values, f, ensure_ascii=False, indent=4)`
writes for the array-of-arrays `rows`. -/
def dumpSheet (rows : List (List String)) : List Char :=
  '[' :: dumpSheetBody rows

/-- JSON whitespace skipping (space, tab, newline, carriage return). -/
def skipWs : List Char → List Char
  | [] => []
  | c :: rest =>
    if c = ' ' || c = '\n' || c = '\t' || c = Char.ofNat 13 then skipWs rest
    else c :: rest

/-- Value of a hexadecimal digit character, if it is one. -/
def hexVal (c : Char) : Option Nat :=
  if '0' ≤ c ∧ c ≤ '9' then some (c.toNat - 48)
  else if 'a' ≤ c ∧ c ≤ 'f' then some (c.toNat - 87)
  else if 'A' ≤ c ∧ c ≤ 'F' then some (c.toNat - 55)
  else none

/-- The single-character JSON escapes. -/
def simpleUnescape (c : Char) : Option Char :=
  if c = '"' then some '"'
  else if c = '\\' then some '\\'
  else if c = '/' then some '/'
  else if c = 'b' then some (Char.ofNat 8)
  else if c = 'f' then some (Char.ofNat 12)
  else if c = 'n' then some '\n'
  else if c = 'r' then some (Char.ofNat 13)
  else if c = 't' then some '\t'
  else none

/-- Reads the body of a JSON string literal (after the opening quote) up to
and including the closing quote; returns the decoded characters and the
remaining input. -/
def parseStringBody : List Char → Option (List Char × List Char)
  | [] => none
  | c :: rest =>
    if c = '"' then some ([], rest)
    else if c = '\\' then
      match rest with
      | [] => none
      | e :: rest2 =>
        if e = 'u' then
          match rest2 with
          | h1 :: h2 :: h3 :: h4 :: rest3 => do
            let v1 ← hexVal h1
            let v2 ← hexVal h2
            let v3 ← hexVal h3
            let v4 ← hexVal h4
            let (cs, r) ← parseStringBody rest3
            pure (Char.ofNat (4096 * v1 + 256 * v2 + 16 * v3 + v4) :: cs, r)
          | _ => none
        else do
          let d ← simpleUnescape e
          let (cs, r) ← parseStringBody rest2
          pure (d :: cs, r)
    else do
      let (cs, r) ← parseStringBody rest
      pure (c :: cs, r)

/-- Reads a JSON string literal (leading whitespace allowed). -/
def parseStringLit (input : List Char) : Option (String × List Char) :=
  match skipWs input with
  | [] => none
  | c :: rest =>
    if c = '"' then (parseStringBody rest).map (fun p => (String.mk p.1, p.2))
    else none

/-- Reads the continuation of an inner array after one element: either the
closing bracket, or a comma and a further string element.  `fuel` bounds the
number of further elements. -/
def parseRowTail (fuel : Nat) (input : List Char) : Option (List String × List Char) :=
  match skipWs input with
  | [] => none
  | c :: r =>
    if c = ']' then some ([], r)
    else if c = ',' then
      match fuel with
      | 0 => none
      | fuel' + 1 => do
        let (s, r2) ← parseStringLit r
        let (ss, r3) ← parseRowTail fuel' r2
        pure (s :: ss, r3)
    else none

/-- Reads an inner array (a row of strings). -/
def parseRowLit (fuel : Nat) (input : List Char) : Option (List String × List Char) :=
  match skipWs input with
  | [] => none
  | c :: r =>
    if c = '[' then
      match skipWs r with
      | [] => none
      | c2 :: r2 =>
        if c2 = ']' then some ([], r2)
        else do
          let (s, r3) ← parseStringLit (c2 :: r2)
          let (ss, r4) ← parseRowTail fuel r3
          pure (s :: ss, r4)
    else none

/-- Reads the continuation of the outer array after one row. -/
def parseSheetTail (fuel : Nat) (input : List Char) : Option (List (List String) × List Char) :=
  match skipWs input with
  | [] => none
  | c :: r =>
    if c = ']' then some ([], r)
    else if c = ',' then
      match fuel with
      | 0 => none
      | fuel' + 1 => do
        let (row, r2) ← parseRowLit fuel' r
        let (rows, r3) ← parseSheetTail fuel' r2
        pure (row :: rows, r3)
    else none

/-- Reads the outer array (the array-of-arrays). -/
def parseSheetLit (fuel : Nat) (input : List Char) : Option (List (List String) × List Char) :=
  match skipWs input with
  | [] => none
  | c :: r =>
    if c = '[' then
      match skipWs r with
      | [] => none
      | c2 :: r2 =>
        if c2 = ']' then some ([], r2)
        else do
          let (row, r3) ← parseRowLit fuel (c2 :: r2)
          let (rows, r4) ← parseSheetTail fuel r3
          pure (row :: rows, r4)
    else none

/-- Python `json.load` as the Dashboard applies it to the interchange file: parse the
array-of-arrays and require that only whitespace remains. -/
def json_load (input : List Char) : Option (List (List String)) :=
  match parseSheetLit input.length input with
  | some (rows, rest) => if skipWs rest = [] then some rows else none
  | none => none

/-- Number of parser loop iterations needed for `rows`: one per row plus one
per cell.  Used only to discharge the parser's fuel bound. -/
def rowsFuel : List (List String) → Nat
  | [] => 0
  | r :: rs => r.length + rowsFuel rs + 1

/-! ## `fetch_data.py`: `fetch_and_save_data`

Every external interaction (environment variable, credential loading,
spreadsheet access) is an oracle field of `FetchWorld` recording how that
interaction turns out in this run.  The observable behaviour is a
`FetchResult`: the exit code, what (if anything) got written to
`OUTPUT_FILE`, and the lines printed to the two output streams. -/

def CREDENTIALS_FILE : String := "credentials/credentials.json"

def SPREADSHEET_ID : String := "1p5KpYbewyBt6mHVp8Jxgkq9t0Y4tPyLtSaEa4BU_-n4"

def OUTPUT_FILE : String := "temp_sheet_data.json"

/-- An exception as classified by the outer `except` clauses of
`fetch_and_save_data` (lines 62-70): `FileNotFoundError`,
`gspread.exceptions.SpreadsheetNotFound`, or any other exception with its
`str(e)` message. -/
inductive PyError where
  | fileNotFound
  | spreadsheetNotFound
  | other (msg : String)
deriving DecidableEq

/-- Oracle record describing one run's external interactions for
`fetch_and_save_data`. -/
structure FetchWorld where
  /-- Value of `os.getenv("GCP_CREDENTIALS_JSON")`. -/
  envJson : Option String
  /-- whether `json.loads` succeeds on that string (consulted only when it is set). -/
  envParseOk : Bool
  /-- Outcome of `gspread.service_account_from_dict(...)`: success, or the `str(e)` of the raised exception. -/
  envServiceAccount : Except String Unit
  /-- Outcome of `gspread.service_account(filename=CREDENTIALS_FILE, ...)`. -/
  fileServiceAccount : Except PyError Unit
  /-- Outcome of `gc.open_by_key(SPREADSHEET_ID)`. -/
  openByKey : Except PyError Unit
  /-- Outcome of `spreadsheet.sheet1`. -/
  sheet1 : Except PyError Unit
  /-- Outcome of `worksheet.get_all_values()`. -/
  getAllValues : Except PyError (List (List String))

/-- Credential resolution of `fetch_and_save_data` succeeded: either the
environment variable was set, parsed as JSON, and yielded a client, or it was
unset and the credential file yielded a client. -/
def credResolved (w : FetchWorld) : Prop :=
  (∃ s, w.envJson = some s ∧ w.envParseOk = true ∧ w.envServiceAccount = .ok ()) ∨
  (w.envJson = none ∧ w.fileServiceAccount = .ok ())

/-- Observable outcome of one run of `fetch_and_save_data`: the exit code,
the bytes written to `OUTPUT_FILE` (`none` = the file was never opened and
keeps its prior contents), and the lines printed on each stream. -/
structure FetchResult where
  exitCode : Nat
  written : Option (List Char)
  stdout : List String
  stderr : List String
deriving DecidableEq

/-- A failure outcome: exit code 1, a single line on stderr, the output file
untouched. -/
def fetchFailure (msg : String) : FetchResult :=
  { exitCode := 1, written := none, stdout := [], stderr := [msg] }

/-- The outer `except` clauses of `fetch_and_save_data` (lines 62-70). -/
def outerHandler (e : PyError) : FetchResult :=
  match e with
  | .fileNotFound =>
    fetchFailure ("fetch_data.py: Error: Credentials file not found at " ++ CREDENTIALS_FILE)
  | .spreadsheetNotFound =>
    fetchFailure ("fetch_data.py: Error: Spreadsheet with ID '" ++ SPREADSHEET_ID ++
      "' not found or permission issue.")
  | .other m =>
    fetchFailure ("fetch_data.py: An unexpected error occurred: " ++ m)

/-- The function `fetch_and_save_data` (fetch_data.py lines 14-70). -/
def fetch_and_save_data (w : FetchWorld) : FetchResult :=
  let cred : Except FetchResult Unit :=
    match w.envJson with
    | some _ =>
      if !w.envParseOk then
        .error (fetchFailure
          "fetch_data.py: Error: GCP_CREDENTIALS_JSON environment variable is not valid JSON.")
      else
        match w.envServiceAccount with
        | .ok _ => .ok ()
        | .error e =>
          .error (fetchFailure ("fetch_data.py: Error loading credentials from env var: " ++ e))
    | none =>
      match w.fileServiceAccount with
      | .ok _ => .ok ()
      | .error e => .error (outerHandler e)
  match cred with
  | .error r => r
  | .ok _ =>
    match w.openByKey with
    | .error e => outerHandler e
    | .ok _ =>
      match w.sheet1 with
      | .error e => outerHandler e
      | .ok _ =>
        match w.getAllValues with
        | .error e => outerHandler e
        | .ok values =>
          { exitCode := 0
            written := some (dumpSheet values)
            stdout := ["Data successfully fetched and saved to " ++ OUTPUT_FILE]
            stderr := [] }

/-! ## `minimal_app.py`: the "load data" button handler (lines 55-86)

Session state is the record `AppState`; the subprocess run and subsequent
file read are an oracle value `FetchRun` describing how they turn out. -/

/-- The four session-state fields of the Dashboard. -/
structure AppState where
  sheet_data : Option (List (List String))
  error_message : Option String
  user_question : String
  ai_response : Option String
deriving DecidableEq

/-- What reading `DATA_FILE_PATH` yields after the subprocess exits 0:
the file may be absent, unreadable, hold invalid JSON, or parse. -/
inductive FileState where
  | absent
  | unreadable (msg : String)
  | badJson (msg : String)
  | parsed (data : List (List String))
deriving DecidableEq

/-- How the `subprocess.run` of the load handler turns out: the process
completed with a return code, captured streams and a file state, or the
launch itself raised. -/
inductive FetchRun where
  | completed (returncode : Int) (stdout stderr : String) (file : FileState)
  | launchFileNotFound (executable : String)
  | launchError (msg : String)
deriving DecidableEq

/-- The "🔄 Cargar datos de encuestas" button handler (minimal_app.py lines
55-86) as a state transition on the session state. -/
def loadDataAction (st : AppState) (run : FetchRun) : AppState :=
  let st1 : AppState :=
    { st with sheet_data := none, error_message := none, ai_response := none }
  match run with
  | .completed rc out err file =>
    if rc = 0 then
      match file with
      | .parsed d => { st1 with sheet_data := some d }
      | .badJson m => { st1 with error_message := some ("Error decoding JSON: " ++ m) }
      | .unreadable m => { st1 with error_message := some ("Error reading data file: " ++ m) }
      | .absent =>
        { st1 with error_message := some ("Data file not found. Script stdout: " ++
            out.trim ++ ", stderr: " ++ err.trim) }
    else
      { st1 with error_message := some ("Sheet data script failed (Code " ++ toString rc ++
          "):\nSTDOUT:" ++ out.trim ++ "\nSTDERR:" ++ err.trim) }
  | .launchFileNotFound exe =>
    { st1 with error_message := some ("Error: Command '" ++ exe ++ "' or 'fetch_data.py' not found.") }
  | .launchError m =>
    { st1 with error_message := some ("Unexpected error running script: " ++ m) }

/-! # Theorems

## General string helpers -/

theorem string_foldl_append (l : List String) (init : String) :
    List.foldl (fun r s => r ++ s) init l =
      init ++ List.foldl (fun r s => r ++ s) "" l := by
  induction l generalizing init with
  | nil => simp
  | cons a l ih =>
    simp only [List.foldl]
    rw [ih (init ++ a), ih ("" ++ a)]
    simp [String.append_assoc]

theorem string_join_cons (s : String) (l : List String) :
    String.join (s :: l) = s ++ String.join l := by
  simp only [String.join, List.foldl]
  rw [string_foldl_append l ("" ++ s)]
  simp

theorem string_mk_data : ∀ s : String, String.mk s.data = s
  | ⟨_⟩ => rfl

/-! ## Prompt construction -/

theorem data_context_eq_dataExcerpt (sheet_data : List (List String)) :
    data_context sheet_data =
      "Datos de la encuesta:\n" ++ dataExcerpt sheet_data ++ "\n---\n" := by
  cases sheet_data <;> rfl

/-- Function `rowsLines` is the concatenation of one `excerptLine` per non-empty row. -/
theorem rowsLines_eq_join_filter (rows : List (List String)) :
    rowsLines rows =
      String.join ((rows.filter (fun r => r ≠ [])).map excerptLine) := by
  induction rows with
  | nil => rfl
  | cons r rs ih =>
    by_cases h : r = []
    · simp [rowsLines, h, List.filter, ih]
    · have hd : decide (r ≠ []) = true := by simpa using h
      simp only [rowsLines, if_neg h, ih, List.filter, hd]
      rw [List.map_cons, string_join_cons]
      rfl

/-- The full prompt decomposes as preamble, heading, data excerpt, separator,
labelled question line. -/
theorem full_prompt_decomposition (question : String) (sheet_data : List (List String)) :
    full_prompt question sheet_data =
      promptPreamble ++ "Datos de la encuesta:\n" ++ dataExcerpt sheet_data ++
        "\n---\n" ++ "Pregunta del usuario: " ++ question := by
  rw [full_prompt, data_context_eq_dataExcerpt]
  simp [String.append_assoc]

/-- C1, counterexample.  The input `[["h"], []]` has a non-empty header row
and one (hence at most five) data rows, yet the data excerpt built by the
code is not the comma-joined header line followed by a comma-joined line for
each data row: the empty data row is skipped, where the claim's reading
would yield an extra empty line. -/
theorem C1_counterexample :
    (["h"] : List String) ≠ [] ∧
    ([([] : List String)]).length ≤ 5 ∧
    dataExcerpt [["h"], []] ≠ excerptClaimedC1 [["h"], []] := by
  refine ⟨by decide, by decide, ?_⟩
  decide

/-- C1, amended.  For every `sheet_data` with a non-empty header row and at
most five data rows, the data excerpt of the composed prompt is exactly the
comma-joined header line followed by one comma-joined line per *non-empty*
data row, in original order (an empty data row contributes no line); the full
prompt is that excerpt between the fixed heading/separator and the labelled
question line. -/
theorem C1_amended_excerpt (header : List String) (rows : List (List String))
    (question : String) (hh : header ≠ []) (hlen : rows.length ≤ 5) :
    dataExcerpt (header :: rows) =
      excerptLine header ++
        String.join ((rows.filter (fun r => r ≠ [])).map excerptLine) ∧
    full_prompt question (header :: rows) =
      promptPreamble ++ "Datos de la encuesta:\n" ++
        (excerptLine header ++
          String.join ((rows.filter (fun r => r ≠ [])).map excerptLine)) ++
        "\n---\n" ++ "Pregunta del usuario: " ++ question := by
  have h1 : dataExcerpt (header :: rows) =
      excerptLine header ++
        String.join ((rows.filter (fun r => r ≠ [])).map excerptLine) := by
    rw [dataExcerpt]
    rw [List.take_of_length_le hlen, if_neg hh, rowsLines_eq_join_filter]
    rfl
  exact ⟨h1, by rw [full_prompt_decomposition, h1]⟩

/-- C1, witness: the end-to-end scenario of the claim.  The amended theorem
applied at the concrete survey rows and question yields exactly the excerpt
`"Fecha, Ánimo\n2023-10-26, Contento\n2023-10-27, Triste\n"` between the
heading/separator and the question line. -/
theorem C1_amended_excerpt_witness :
    dataExcerpt [["Fecha", "Ánimo"], ["2023-10-26", "Contento"], ["2023-10-27", "Triste"]] =
      "Fecha, Ánimo\n2023-10-26, Contento\n2023-10-27, Triste\n" ∧
    full_prompt "¿Cuál es el ánimo general?"
        [["Fecha", "Ánimo"], ["2023-10-26", "Contento"], ["2023-10-27", "Triste"]] =
      promptPreamble ++ "Datos de la encuesta:\n" ++
        "Fecha, Ánimo\n2023-10-26, Contento\n2023-10-27, Triste\n" ++
        "\n---\n" ++ "Pregunta del usuario: " ++ "¿Cuál es el ánimo general?" := by
  have h := C1_amended_excerpt ["Fecha", "Ánimo"]
    [["2023-10-26", "Contento"], ["2023-10-27", "Triste"]]
    "¿Cuál es el ánimo general?" (by decide) (by decide)
  have hval : excerptLine ["Fecha", "Ánimo"] ++
      String.join (([["2023-10-26", "Contento"], ["2023-10-27", "Triste"]].filter
        (fun r => r ≠ [])).map excerptLine) =
      "Fecha, Ánimo\n2023-10-26, Contento\n2023-10-27, Triste\n" := by decide
  exact ⟨h.1.trans hval, h.2.trans (by rw [hval])⟩

/-- C4.  For every `sheet_data` with more than five data rows, the data
excerpt contains the header line plus exactly the first five data rows
(input indices 1 through 5) — one comma-joined line per non-empty row among
them, an empty row contributing no line — and no later row: the excerpt
coincides with that of the input truncated after its fifth data row. -/
theorem C4_truncation (header : List String) (rows : List (List String))
    (hh : header ≠ []) (_h5 : 5 < rows.length) :
    dataExcerpt (header :: rows) =
      excerptLine header ++
        String.join (((rows.take 5).filter (fun r => r ≠ [])).map excerptLine) ∧
    dataExcerpt (header :: rows) = dataExcerpt (header :: rows.take 5) := by
  have h1 : dataExcerpt (header :: rows) =
      excerptLine header ++
        String.join (((rows.take 5).filter (fun r => r ≠ [])).map excerptLine) := by
    rw [dataExcerpt, if_neg hh, rowsLines_eq_join_filter]
    rfl
  refine ⟨h1, ?_⟩
  rw [h1, dataExcerpt, if_neg hh, rowsLines_eq_join_filter, List.take_take]
  rfl

/-- C4, witness: seven data rows, the fourth empty; the excerpt keeps the
header and data rows 1-5 (the empty one contributing no line) and drops
rows 6 and 7. -/
theorem C4_truncation_witness :
    dataExcerpt [["h1", "h2"], ["a"], ["b"], ["c"], [], ["e"], ["f"], ["g"]] =
      "h1, h2\na\nb\nc\ne\n" := by
  have h := C4_truncation ["h1", "h2"] [["a"], ["b"], ["c"], [], ["e"], ["f"], ["g"]]
    (by decide) (by decide)
  exact h.1.trans (by decide)

/-- C5.  For the empty `sheet_data` the data excerpt is exactly the fixed
"no data available" line, and for every question the composed prompt is
non-empty and contains the question text. -/
theorem C5_empty_data (question : String) :
    dataExcerpt [] = "No hay datos disponibles de la encuesta.\n" ∧
    0 < (full_prompt question []).length ∧
    ∃ a b : String, full_prompt question [] = a ++ question ++ b := by
  refine ⟨rfl, ?_, ?_⟩
  · rw [full_prompt_decomposition]
    simp only [String.length_append]
    have h22 : 0 < "Pregunta del usuario: ".length := by decide
    omega
  · refine ⟨promptPreamble ++ "Datos de la encuesta:\n" ++ dataExcerpt [] ++
      "\n---\n" ++ "Pregunta del usuario: ", "", ?_⟩
    rw [full_prompt_decomposition]
    simp [String.append_assoc, String.append_empty]

/-! ## Response-text extraction -/

theorem partFragments_cons (p : GPart) (ps : List GPart) :
    partFragments (p :: ps) = p.text.getD "" ++ partFragments ps := by
  rw [partFragments, List.map_cons, string_join_cons]
  rfl

theorem candidateFragments_cons (c : GCandidate) (cs : List GCandidate) :
    candidateFragments (c :: cs) =
      (match c.content with
       | some ct =>
         match ct.parts with
         | some ps => partFragments ps
         | none => ""
       | none => "") ++ candidateFragments cs := by
  rw [candidateFragments, List.map_cons, string_join_cons]
  rfl

theorem partsTextFrom_eq (acc : String) (ps : List GPart) :
    partsTextFrom acc ps = acc ++ partFragments ps := by
  induction ps generalizing acc with
  | nil => simp [partsTextFrom, partFragments, String.join]
  | cons p ps ih =>
    have hstep : partsTextFrom acc (p :: ps) =
        partsTextFrom (match p.text with | some t => acc ++ t | none => acc) ps := rfl
    rw [hstep, ih, partFragments_cons]
    cases p.text with
    | none => simp [String.empty_append]
    | some t => simp [String.append_assoc]

theorem candidatesTextFrom_eq (acc : String) (cs : List GCandidate) :
    candidatesTextFrom acc cs = acc ++ candidateFragments cs := by
  induction cs generalizing acc with
  | nil => simp [candidatesTextFrom, candidateFragments, String.join]
  | cons c cs ih =>
    obtain ⟨cto⟩ := c
    cases cto with
    | none =>
      have hstep : candidatesTextFrom acc (⟨none⟩ :: cs) = candidatesTextFrom acc cs := rfl
      rw [hstep, ih, candidateFragments_cons]
      simp [String.empty_append]
    | some ct =>
      obtain ⟨pso⟩ := ct
      cases pso with
      | none =>
        have hstep : candidatesTextFrom acc (⟨some ⟨none⟩⟩ :: cs) =
            candidatesTextFrom acc cs := rfl
        rw [hstep, ih, candidateFragments_cons]
        simp [String.empty_append]
      | some ps =>
        have hstep : candidatesTextFrom acc (⟨some ⟨some ps⟩⟩ :: cs) =
            candidatesTextFrom (partsTextFrom acc ps) cs := rfl
        rw [hstep, ih, candidateFragments_cons, partsTextFrom_eq]
        simp [String.append_assoc]

theorem string_join_all_empty (l : List String) (h : ∀ s ∈ l, s = "") :
    String.join l = "" := by
  induction l with
  | nil => rfl
  | cons a t ih =>
    rw [string_join_cons, h a (List.mem_cons_self a t),
      ih (fun s hs => h s (List.mem_cons_of_mem a hs))]
    rfl

theorem partFragments_all_none (ps : List GPart) (h : ∀ p ∈ ps, p.text = none) :
    partFragments ps = "" := by
  rw [partFragments]
  apply string_join_all_empty
  intro s hs
  rw [List.mem_map] at hs
  obtain ⟨p, hpmem, rfl⟩ := hs
  rw [h p hpmem]
  rfl

theorem candidateFragments_all_none (cs : List GCandidate)
    (h : ∀ c ∈ cs, ∀ ct, c.content = some ct → ∀ ps, ct.parts = some ps →
      ∀ p ∈ ps, p.text = none) :
    candidateFragments cs = "" := by
  rw [candidateFragments]
  apply string_join_all_empty
  intro s hs
  rw [List.mem_map] at hs
  obtain ⟨c, hcmem, rfl⟩ := hs
  obtain ⟨cto⟩ := c
  cases cto with
  | none => rfl
  | some ct =>
    obtain ⟨pso⟩ := ct
    cases pso with
    | none => rfl
    | some ps =>
      show partFragments ps = ""
      exact partFragments_all_none ps (h ⟨some ⟨some ps⟩⟩ hcmem ⟨some ps⟩ rfl ps rfl)

/-- C2.  Response-text extraction tries the three response shapes in order:
a direct `text` attribute is returned exactly; with no `text` attribute but a
`parts` list, the extracted text is the concatenation of the parts' text
fragments in order; with neither, but a non-empty `candidates` list, it is
the concatenation of every fragment discoverable through the candidates'
nested content parts, in structural order, with no added separators. -/
theorem C2_extraction_shapes (r : GeminiResponse) :
    (∀ t, r.text = some t → extract_text r = t) ∧
    (∀ ps, r.text = none → r.parts = some ps →
      extract_text r = partFragments ps) ∧
    (∀ cs, r.text = none → r.parts = none → r.candidates = some cs → cs ≠ [] →
      extract_text r = candidateFragments cs) := by
  refine ⟨?_, ?_, ?_⟩
  · intro t ht
    simp [extract_text, ht]
  · intro ps ht hp
    simp [extract_text, ht, hp, partsTextFrom_eq, String.empty_append]
  · intro cs ht hp hc hne
    have hemp : cs.isEmpty = false := by simpa [List.isEmpty_iff] using hne
    simp [extract_text, ht, hp, hc, hemp, candidatesTextFrom_eq, String.empty_append]

/-- C2, witness: a response with only the nested candidates shape; extraction
concatenates the two fragments in structural order. -/
theorem C2_extraction_shapes_witness :
    extract_text
      { text := none, parts := none,
        candidates := some
          [{ content := some { parts := some [{ text := some "Hola " }] } },
           { content := some { parts := some [{ text := none }, { text := some "mundo" }] } }] } =
      "Hola mundo" := by
  have h := (C2_extraction_shapes
    { text := none, parts := none,
      candidates := some
        [{ content := some { parts := some [{ text := some "Hola " }] } },
         { content := some { parts := some [{ text := none }, { text := some "mundo" }] } }] }).2.2
    [{ content := some { parts := some [{ text := some "Hola " }] } },
     { content := some { parts := some [{ text := none }, { text := some "mundo" }] } }]
    rfl rfl rfl (by decide)
  exact h.trans (by decide)

/-! ## `get_ai_response` error handling -/

/-- C6.  If the client failed to initialize (`google_api_key_loaded` false or
`gemini_model` `None`), `get_ai_response` returns the one fixed Spanish error
string for every question and every sheet data, and sends nothing to the
completion endpoint (empty call trace). -/
theorem C6_uninitialized_client (client : AIClient) (generate : String → GenResult)
    (question : String) (sheet_data : List (List String))
    (h : client.google_api_key_loaded = false ∨ client.gemini_model = none) :
    get_ai_response_traced client generate question sheet_data =
      ("Error: El cliente de Google Gemini no está inicializado correctamente. Verifica la clave API.",
        []) := by
  rw [get_ai_response_traced]
  rcases h with h | h
  · rw [if_pos (by simp [h])]
  · rw [if_pos (by simp [h])]

/-- C6, witness: an uninitialized client with empty question and empty data
issues no call and yields the fixed error string. -/
theorem C6_uninitialized_client_witness :
    get_ai_response_traced ⟨false, none⟩ (fun _ => .ok ⟨none, none, none⟩) "" [] =
      ("Error: El cliente de Google Gemini no está inicializado correctamente. Verifica la clave API.",
        []) :=
  C6_uninitialized_client ⟨false, none⟩ (fun _ => .ok ⟨none, none, none⟩) "" []
    (Or.inl rfl)

/-- C7.  Every exception raised by the completion call is caught: the result
is the Spanish error string embedding `str(e)` and the provider detail, where
the detail is the `message` attribute when present and otherwise the first
exception argument (empty when there is none); the embedding of
`get_ai_response` is a total function, so no exception propagates. -/
theorem C7_exception_caught (client : AIClient) (generate : String → GenResult)
    (question : String) (sheet_data : List (List String)) (e : PyException)
    (hk : client.google_api_key_loaded = true)
    (hm : client.gemini_model = some ())
    (hgen : generate (full_prompt question sheet_data) = .raise e) :
    get_ai_response client generate question sheet_data =
      "Error al comunicar con Google Gemini: " ++ e.str ++ " (" ++ error_details e ++ ")" ∧
    (∀ m, e.message = some m → error_details e = m) ∧
    (∀ a rest, e.message = none → e.args = a :: rest → error_details e = a) := by
  refine ⟨?_, ?_, ?_⟩
  · rw [get_ai_response, get_ai_response_traced]
    rw [if_neg (by simp [hk, hm])]
    simp only [hgen]
  · intro m hmsg
    rw [error_details, hmsg]
  · intro a rest hmsg hargs
    rw [error_details, hmsg, hargs]

/-- C7, witness: a raising oracle; the result embeds `str(e)` and the first
argument as detail. -/
theorem C7_exception_caught_witness :
    get_ai_response ⟨true, some ()⟩ (fun _ => .raise ⟨"boom", none, ["det"]⟩) "q" [["h"]] =
      "Error al comunicar con Google Gemini: boom (det)" := by
  have h := C7_exception_caught ⟨true, some ()⟩ (fun _ => .raise ⟨"boom", none, ["det"]⟩)
    "q" [["h"]] ⟨"boom", none, ["det"]⟩ rfl rfl rfl
  exact h.1.trans (by decide)

/-- C9.  With an initialized client and a completion call that returns a
response exposing none of the recognized shapes (no `text` attribute, no
`parts` entry bearing text, no non-empty `candidates` entry with nested parts
bearing text), `get_ai_response` returns the empty string — a success-shaped
value, not an error message. -/
theorem C9_unrecognized_shape_empty (client : AIClient) (generate : String → GenResult)
    (question : String) (sheet_data : List (List String)) (r : GeminiResponse)
    (hk : client.google_api_key_loaded = true)
    (hm : client.gemini_model = some ())
    (hgen : generate (full_prompt question sheet_data) = .ok r)
    (ht : r.text = none)
    (hp : ∀ ps, r.parts = some ps → ∀ p ∈ ps, p.text = none)
    (hc : ∀ cs, r.candidates = some cs → ∀ c ∈ cs, ∀ ct, c.content = some ct →
      ∀ ps, ct.parts = some ps → ∀ p ∈ ps, p.text = none) :
    get_ai_response client generate question sheet_data = "" := by
  have hres : extract_text r = "" := by
    cases hps : r.parts with
    | some ps =>
      simp only [extract_text, ht, hps]
      rw [partsTextFrom_eq, String.empty_append]
      exact partFragments_all_none ps (hp ps hps)
    | none =>
      cases hcs : r.candidates with
      | none => simp [extract_text, ht, hps, hcs]
      | some cs =>
        by_cases hemp : cs.isEmpty
        · simp [extract_text, ht, hps, hcs, hemp]
        · simp only [extract_text, ht, hps, hcs]
          rw [if_neg hemp, candidatesTextFrom_eq, String.empty_append]
          exact candidateFragments_all_none cs (hc cs hcs)
  rw [get_ai_response, get_ai_response_traced]
  rw [if_neg (by simp [hk, hm])]
  simp only [hgen]
  exact hres

/-- C9, witness: an initialized client, a response with an absent `text`
attribute, a `candidates` list whose single candidate has no text-bearing
part, and the result is the empty string. -/
theorem C9_unrecognized_shape_empty_witness :
    get_ai_response ⟨true, some ()⟩
      (fun _ => .ok ⟨none, none, some [⟨some ⟨some [⟨none⟩]⟩⟩]⟩) "q" [] = "" :=
  C9_unrecognized_shape_empty ⟨true, some ()⟩
    (fun _ => .ok ⟨none, none, some [⟨some ⟨some [⟨none⟩]⟩⟩]⟩) "q" []
    ⟨none, none, some [⟨some ⟨some [⟨none⟩]⟩⟩]⟩ rfl rfl rfl rfl
    (by intro ps hps; cases hps)
    (by
      intro cs hcs c hcmem ct hct ps hps p hpm
      cases hcs
      simp only [List.mem_singleton] at hcmem
      subst hcmem
      cases hct
      cases hps
      simp only [List.mem_singleton] at hpm
      subst hpm
      rfl)

/-! ## The Dashboard "load" action -/

/-- C3, counterexample.  From a prior session state whose loaded data is
`[["x"]]`, a failing fetch subprocess (exit code 1) leaves the loaded data
`None`, not the prior value: the handler clears `sheet_data` before running
the subprocess. -/
theorem C3_counterexample :
    (loadDataAction ⟨some [["x"]], none, "", none⟩
        (.completed 1 "" "" .absent)).sheet_data ≠
      (⟨some [["x"]], none, "", none⟩ : AppState).sheet_data := by
  decide

/-- C3, amended.  On subprocess success (exit code 0) with a parsing data
file, the load action replaces the loaded data with the file contents and
clears the prior answer and error; on subprocess failure (non-zero exit
code) it records a non-empty error string, clears the prior answer, and
clears the loaded data to `None` (so the loaded data equals its prior value
only when that value was already `None`, e.g. on first load). -/
theorem C3_amended_load (st : AppState) (d : List (List String)) (rc : Int)
    (out err : String) (file : FileState) (hrc : rc ≠ 0) :
    (loadDataAction st (.completed 0 out err (.parsed d))).sheet_data = some d ∧
    (loadDataAction st (.completed 0 out err (.parsed d))).ai_response = none ∧
    (loadDataAction st (.completed 0 out err (.parsed d))).error_message = none ∧
    (∃ msg, (loadDataAction st (.completed rc out err file)).error_message = some msg ∧
      msg ≠ "") ∧
    (loadDataAction st (.completed rc out err file)).sheet_data = none ∧
    (loadDataAction st (.completed rc out err file)).ai_response = none := by
  refine ⟨by simp [loadDataAction], by simp [loadDataAction], by simp [loadDataAction],
    ?_, by simp [loadDataAction, hrc], by simp [loadDataAction, hrc]⟩
  refine ⟨"Sheet data script failed (Code " ++ toString rc ++ "):\nSTDOUT:" ++
    out.trim ++ "\nSTDERR:" ++ err.trim, by simp [loadDataAction, hrc], ?_⟩
  intro hempty
  have hlen := congrArg String.length hempty
  simp only [String.length_append] at hlen
  have hlit : 0 < "Sheet data script failed (Code ".length := by decide
  have hz : ("" : String).length = 0 := rfl
  omega

/-- C3, witness: from a fresh state, a successful run loads the parsed file
contents, and a failing run (code 1) records a non-empty error with the data
cleared. -/
theorem C3_amended_load_witness :
    (loadDataAction ⟨none, none, "", none⟩
        (.completed 0 "ok" "" (.parsed [["h"], ["v"]]))).sheet_data = some [["h"], ["v"]] ∧
    (∃ msg, (loadDataAction ⟨none, none, "", none⟩
        (.completed 1 "out" "boom" .absent)).error_message = some msg ∧ msg ≠ "") ∧
    (loadDataAction ⟨none, none, "", none⟩
        (.completed 1 "out" "boom" .absent)).sheet_data = none := by
  have h := C3_amended_load ⟨none, none, "", none⟩ [["h"], ["v"]] 1 "out" "boom"
    .absent (by decide)
  exact ⟨(C3_amended_load ⟨none, none, "", none⟩ [["h"], ["v"]] 1 "ok" "" .absent
    (by decide)).1, h.2.2.2.1, h.2.2.2.2.1⟩

/-! ## The Data Fetcher -/

theorem outerHandler_exitCode (e : PyError) : (outerHandler e).exitCode = 1 := by
  cases e <;> rfl

theorem outerHandler_written (e : PyError) : (outerHandler e).written = none := by
  cases e <;> rfl

/-- C10.  `fetch_and_save_data` writes the output file exactly on the runs
that exit 0; whenever it writes, credential resolution, spreadsheet opening,
worksheet selection and value download have all succeeded and what is written
is the serialization of the downloaded values; on every failure path it exits
1 with the output file untouched. -/
theorem C10_write_after_success (w : FetchWorld) :
    ((fetch_and_save_data w).written = none ↔ (fetch_and_save_data w).exitCode = 1) ∧
    (∀ v, (fetch_and_save_data w).written = some v →
      (fetch_and_save_data w).exitCode = 0 ∧ credResolved w ∧
      w.openByKey = .ok () ∧ w.sheet1 = .ok () ∧
      ∃ values, w.getAllValues = .ok values ∧ v = dumpSheet values) := by
  obtain ⟨ej, ep, esa, fsa, okk, s1, gv⟩ := w
  cases ej <;> cases ep <;> cases esa <;> cases fsa <;> cases okk <;> cases s1 <;> cases gv <;>
    simp_all [fetch_and_save_data, fetchFailure, outerHandler_exitCode, outerHandler_written,
      credResolved]

/-- C10, witness: a run in which every step succeeds writes the serialized
downloaded values and exits 0, with all steps certified. -/
theorem C10_write_after_success_witness :
    (fetch_and_save_data ⟨none, true, .ok (), .ok (), .ok (), .ok (), .ok [["a"]]⟩).exitCode = 0 ∧
    credResolved ⟨none, true, .ok (), .ok (), .ok (), .ok (), .ok [["a"]]⟩ ∧
    (⟨none, true, .ok (), .ok (), .ok (), .ok (), .ok [["a"]]⟩ : FetchWorld).openByKey = .ok () ∧
    (⟨none, true, .ok (), .ok (), .ok (), .ok (), .ok [["a"]]⟩ : FetchWorld).sheet1 = .ok () ∧
    ∃ values,
      (⟨none, true, .ok (), .ok (), .ok (), .ok (), .ok [["a"]]⟩ : FetchWorld).getAllValues =
        .ok values ∧
      dumpSheet [["a"]] = dumpSheet values :=
  (C10_write_after_success ⟨none, true, .ok (), .ok (), .ok (), .ok (), .ok [["a"]]⟩).2
    (dumpSheet [["a"]]) rfl

/-! ## JSON round-trip: the serialized file parses back to the same value -/

theorem hexVal_hexDigit : ∀ n < 16, hexVal (hexDigit n) = some n := by decide

/-- Reading back the escape sequence of one character consumes it and yields
that character, whatever follows. -/
theorem parseStringBody_escapeChar (c : Char) (tail : List Char) :
    parseStringBody (escapeChar c ++ tail) =
      (parseStringBody tail).map (fun p => (c :: p.1, p.2)) := by
  by_cases h1 : c = '\\'
  · subst h1
    rcases hp : parseStringBody tail with _ | ⟨cs, r⟩ <;>
      · simp only [escapeChar, List.cons_append, List.nil_append]
        rw [parseStringBody.eq_def]
        simp [simpleUnescape, hp]
  by_cases h2 : c = '"'
  · subst h2
    rcases hp : parseStringBody tail with _ | ⟨cs, r⟩ <;>
      · simp only [escapeChar, List.cons_append, List.nil_append]
        rw [parseStringBody.eq_def]
        simp [simpleUnescape, hp]
  by_cases h3 : c = Char.ofNat 8
  · subst h3
    rcases hp : parseStringBody tail with _ | ⟨cs, r⟩ <;>
      · simp only [escapeChar, List.cons_append, List.nil_append]
        rw [parseStringBody.eq_def]
        simp [simpleUnescape, hp]
  by_cases h4 : c = Char.ofNat 12
  · subst h4
    rcases hp : parseStringBody tail with _ | ⟨cs, r⟩ <;>
      · simp only [escapeChar, List.cons_append, List.nil_append]
        rw [parseStringBody.eq_def]
        simp [simpleUnescape, hp]
  by_cases h5 : c = '\n'
  · subst h5
    rcases hp : parseStringBody tail with _ | ⟨cs, r⟩ <;>
      · simp only [escapeChar, List.cons_append, List.nil_append]
        rw [parseStringBody.eq_def]
        simp [simpleUnescape, hp]
  by_cases h6 : c = Char.ofNat 13
  · subst h6
    rcases hp : parseStringBody tail with _ | ⟨cs, r⟩ <;>
      · simp only [escapeChar, List.cons_append, List.nil_append]
        rw [parseStringBody.eq_def]
        simp [simpleUnescape, hp]
  by_cases h7 : c = '\t'
  · subst h7
    rcases hp : parseStringBody tail with _ | ⟨cs, r⟩ <;>
      · simp only [escapeChar, List.cons_append, List.nil_append]
        rw [parseStringBody.eq_def]
        simp [simpleUnescape, hp]
  by_cases h8 : c.toNat < 32
  · have hesc : escapeChar c =
        ['\\', 'u', '0', '0', hexDigit (c.toNat / 16), hexDigit (c.toNat % 16)] := by
      rw [escapeChar, if_neg h1, if_neg h2, if_neg h3, if_neg h4, if_neg h5, if_neg h6,
        if_neg h7, if_pos h8]
    have ha := hexVal_hexDigit (c.toNat / 16) (by omega)
    have hb := hexVal_hexDigit (c.toNat % 16) (by omega)
    have hz : hexVal '0' = some 0 := by decide
    have hn : 16 * (c.toNat / 16) + c.toNat % 16 = c.toNat := by omega
    rw [hesc]
    rcases hp : parseStringBody tail with _ | ⟨cs, r⟩ <;>
      · rw [parseStringBody.eq_def]
        simp [hp, ha, hb, hz, hn, Char.ofNat_toNat]
  · have hesc : escapeChar c = [c] := by
      rw [escapeChar, if_neg h1, if_neg h2, if_neg h3, if_neg h4, if_neg h5, if_neg h6,
        if_neg h7, if_neg h8]
    rw [hesc]
    rcases hp : parseStringBody tail with _ | ⟨cs, r⟩ <;>
      · rw [parseStringBody.eq_def]
        simp [hp, h1, h2]

/-- Reading back an escaped string body followed by the closing quote yields
the original characters. -/
theorem parseStringBody_escape (s : List Char) (rest : List Char) :
    parseStringBody (s.flatMap escapeChar ++ ('"' :: rest)) = some (s, rest) := by
  induction s with
  | nil =>
    rw [List.flatMap_nil, List.nil_append, parseStringBody.eq_def]
    simp
  | cons c cs ih =>
    rw [List.flatMap_cons, List.append_assoc, parseStringBody_escapeChar, ih]
    rfl

theorem skipWs_replicate (k : Nat) (x : List Char) :
    skipWs (List.replicate k ' ' ++ x) = skipWs x := by
  induction k with
  | zero => rw [List.replicate_zero, List.nil_append]
  | succ n ih =>
    rw [List.replicate_succ, List.cons_append, skipWs.eq_def]
    simp [ih]

theorem skipWs_nlIndent (k : Nat) (x : List Char) :
    skipWs (nlIndent k ++ x) = skipWs x := by
  rw [nlIndent, List.cons_append, skipWs.eq_def]
  simp [skipWs_replicate]

theorem skipWs_not_ws (c : Char) (x : List Char)
    (h : (c = ' ' || c = '\n' || c = '\t' || c = Char.ofNat 13) = false) :
    skipWs (c :: x) = c :: x := by
  rw [skipWs.eq_def]
  simp [h]

theorem parseStringLit_cons_escape (s : String) (rest : List Char) :
    parseStringLit ('"' :: (s.data.flatMap escapeChar ++ ('"' :: rest))) = some (s, rest) := by
  rw [parseStringLit.eq_def, skipWs_not_ws _ _ (by decide)]
  simp [parseStringBody_escape, string_mk_data]

theorem parseStringLit_dumpString (s : String) (rest : List Char) :
    parseStringLit (dumpString s ++ rest) = some (s, rest) := by
  rw [dumpString, List.cons_append, List.append_assoc, List.singleton_append]
  exact parseStringLit_cons_escape s rest

theorem parseStringLit_ws (k : Nat) (x : List Char) :
    parseStringLit (nlIndent k ++ x) = parseStringLit x := by
  rw [parseStringLit.eq_def, parseStringLit.eq_def, skipWs_nlIndent]

theorem parseRowTail_dump (ss : List String) (fuel : Nat) (rest : List Char)
    (hf : ss.length ≤ fuel) :
    parseRowTail fuel
      (ss.flatMap (fun x => ',' :: (nlIndent 8 ++ dumpString x)) ++
        (nlIndent 4 ++ (']' :: rest))) =
      some (ss, rest) := by
  induction ss generalizing fuel with
  | nil =>
    rw [List.flatMap_nil, List.nil_append, parseRowTail.eq_def, skipWs_nlIndent,
      skipWs_not_ws _ _ (by decide)]
    simp
  | cons s ss ih =>
    obtain ⟨f, rfl⟩ : ∃ f, fuel = f + 1 :=
      ⟨fuel - 1, by rw [List.length_cons] at hf; omega⟩
    simp only [List.flatMap_cons, List.cons_append, List.append_assoc]
    rw [parseRowTail.eq_def, skipWs_not_ws _ _ (by decide)]
    have hs : parseStringLit (nlIndent 8 ++ (dumpString s ++
        (ss.flatMap (fun x => ',' :: (nlIndent 8 ++ dumpString x)) ++
          (nlIndent 4 ++ (']' :: rest))))) =
        some (s, ss.flatMap (fun x => ',' :: (nlIndent 8 ++ dumpString x)) ++
          (nlIndent 4 ++ (']' :: rest))) := by
      rw [parseStringLit_ws, parseStringLit_dumpString]
    have hrec := ih f (by rw [List.length_cons] at hf; omega)
    simp [hs, hrec]

theorem parseRowLit_cons_eq (fuel : Nat) (x : List Char) :
    parseRowLit fuel ('[' :: x) =
      (match skipWs x with
       | [] => none
       | c2 :: r2 =>
         if c2 = ']' then some ([], r2)
         else do
           let (s, r3) ← parseStringLit (c2 :: r2)
           let (ss, r4) ← parseRowTail fuel r3
           pure (s :: ss, r4)) := rfl

theorem parseRowLit_cons (row : List String) (fuel : Nat) (rest : List Char)
    (hf : row.length ≤ fuel) :
    parseRowLit fuel ('[' :: (dumpRowBody row ++ rest)) = some (row, rest) := by
  cases row with
  | nil =>
    rw [dumpRowBody, List.singleton_append, parseRowLit_cons_eq,
      skipWs_not_ws _ _ (by decide)]
    simp
  | cons s ss =>
    rw [dumpRowBody]
    simp only [List.cons_append, List.append_assoc, List.singleton_append, List.nil_append]
    rw [parseRowLit_cons_eq]
    have h2 : skipWs (nlIndent 8 ++ (dumpString s ++
        (ss.flatMap (fun x => ',' :: (nlIndent 8 ++ dumpString x)) ++
          (nlIndent 4 ++ (']' :: rest))))) =
        '"' :: ((s.data.flatMap escapeChar ++ ['"']) ++
          (ss.flatMap (fun x => ',' :: (nlIndent 8 ++ dumpString x)) ++
            (nlIndent 4 ++ (']' :: rest)))) := by
      rw [skipWs_nlIndent, dumpString, List.cons_append]
      exact skipWs_not_ws _ _ (by decide)
    rw [h2]
    have h4 := parseRowTail_dump ss fuel rest
      (by rw [List.length_cons] at hf; omega)
    simp [List.append_assoc, List.singleton_append, parseStringLit_cons_escape, h4]

theorem parseRowLit_dump (row : List String) (fuel : Nat) (rest : List Char)
    (hf : row.length ≤ fuel) :
    parseRowLit fuel (dumpRow row ++ rest) = some (row, rest) := by
  rw [dumpRow, List.cons_append]
  exact parseRowLit_cons row fuel rest hf

theorem parseRowLit_ws (fuel k : Nat) (x : List Char) :
    parseRowLit fuel (nlIndent k ++ x) = parseRowLit fuel x := by
  rw [parseRowLit.eq_def, parseRowLit.eq_def, skipWs_nlIndent]

theorem parseSheetTail_dump (rs : List (List String)) (fuel : Nat) (rest : List Char)
    (hf : rowsFuel rs ≤ fuel) :
    parseSheetTail fuel
      (rs.flatMap (fun x => ',' :: (nlIndent 4 ++ dumpRow x)) ++
        (nlIndent 0 ++ (']' :: rest))) =
      some (rs, rest) := by
  induction rs generalizing fuel rest with
  | nil =>
    rw [List.flatMap_nil, List.nil_append, parseSheetTail.eq_def, skipWs_nlIndent,
      skipWs_not_ws _ _ (by decide)]
    simp
  | cons r rs ih =>
    obtain ⟨f, rfl⟩ : ∃ f, fuel = f + 1 :=
      ⟨fuel - 1, by rw [rowsFuel] at hf; omega⟩
    simp only [List.flatMap_cons, List.cons_append, List.append_assoc]
    rw [parseSheetTail.eq_def, skipWs_not_ws _ _ (by decide)]
    have hrow : parseRowLit f (nlIndent 4 ++ (dumpRow r ++
        (rs.flatMap (fun x => ',' :: (nlIndent 4 ++ dumpRow x)) ++
          (nlIndent 0 ++ (']' :: rest))))) =
        some (r, rs.flatMap (fun x => ',' :: (nlIndent 4 ++ dumpRow x)) ++
          (nlIndent 0 ++ (']' :: rest))) := by
      rw [parseRowLit_ws]
      exact parseRowLit_dump r f _ (by rw [rowsFuel] at hf; omega)
    have hrec := ih f rest (by rw [rowsFuel] at hf; omega)
    simp [hrow, hrec]

theorem parseSheetLit_cons_eq (fuel : Nat) (x : List Char) :
    parseSheetLit fuel ('[' :: x) =
      (match skipWs x with
       | [] => none
       | c2 :: r2 =>
         if c2 = ']' then some ([], r2)
         else do
           let (row, r3) ← parseRowLit fuel (c2 :: r2)
           let (rows, r4) ← parseSheetTail fuel r3
           pure (row :: rows, r4)) := rfl

theorem parseSheetLit_dump (rows : List (List String)) (fuel : Nat) (rest : List Char)
    (hf : rowsFuel rows ≤ fuel) :
    parseSheetLit fuel (dumpSheet rows ++ rest) = some (rows, rest) := by
  rw [dumpSheet, List.cons_append]
  cases rows with
  | nil =>
    rw [dumpSheetBody, List.singleton_append, parseSheetLit_cons_eq,
      skipWs_not_ws _ _ (by decide)]
    simp
  | cons r rs =>
    rw [dumpSheetBody]
    simp only [List.cons_append, List.append_assoc, List.singleton_append, List.nil_append]
    rw [parseSheetLit_cons_eq]
    have h2 : skipWs (nlIndent 4 ++ (dumpRow r ++
        (rs.flatMap (fun x => ',' :: (nlIndent 4 ++ dumpRow x)) ++
          (nlIndent 0 ++ (']' :: rest))))) =
        '[' :: (dumpRowBody r ++
          (rs.flatMap (fun x => ',' :: (nlIndent 4 ++ dumpRow x)) ++
            (nlIndent 0 ++ (']' :: rest)))) := by
      rw [skipWs_nlIndent, dumpRow, List.cons_append]
      exact skipWs_not_ws _ _ (by decide)
    rw [h2]
    have hrow := parseRowLit_cons r fuel
      (rs.flatMap (fun x => ',' :: (nlIndent 4 ++ dumpRow x)) ++
        (nlIndent 0 ++ (']' :: rest)))
      (by rw [rowsFuel] at hf; omega)
    have htail := parseSheetTail_dump rs fuel rest (by rw [rowsFuel] at hf; omega)
    simp [hrow, htail]

theorem nlIndent_length (k : Nat) : (nlIndent k).length = k + 1 := by
  simp [nlIndent]

theorem length_flatMap_strings (ss : List String) (k : Nat) :
    ss.length ≤ (ss.flatMap (fun x => ',' :: (nlIndent k ++ dumpString x))).length := by
  induction ss with
  | nil => simp
  | cons s ss ih =>
    simp only [List.flatMap_cons, List.length_append, List.length_cons]
    omega

theorem dumpRow_length (row : List String) : row.length ≤ (dumpRow row).length := by
  cases row with
  | nil => simp [dumpRow, dumpRowBody]
  | cons s ss =>
    have h := length_flatMap_strings ss 8
    simp only [dumpRow, dumpRowBody, List.length_cons, List.length_append]
    omega

theorem rowsFuel_flat (rs : List (List String)) :
    rowsFuel rs ≤ (rs.flatMap (fun x => ',' :: (nlIndent 4 ++ dumpRow x))).length := by
  induction rs with
  | nil => simp [rowsFuel]
  | cons r rs ih =>
    have h := dumpRow_length r
    simp only [List.flatMap_cons, List.length_append, List.length_cons, rowsFuel,
      nlIndent_length]
    omega

theorem rowsFuel_le_dumpSheet (rows : List (List String)) :
    rowsFuel rows ≤ (dumpSheet rows).length := by
  cases rows with
  | nil => simp [rowsFuel]
  | cons r rs =>
    have h1 := dumpRow_length r
    have h2 := rowsFuel_flat rs
    simp only [dumpSheet, dumpSheetBody, List.length_cons, List.length_append, rowsFuel,
      nlIndent_length]
    omega

/-- C8.  For every SheetData value — empty rows and non-ASCII cell text
included — serializing it as `fetch_and_save_data` does
(`json.dump(..., ensure_ascii=False, indent=4)`) and reading the file back
as the Dashboard does (`json.load`) yields an array-of-arrays equal in value
to the original. -/
theorem C8_json_roundtrip (rows : List (List String)) :
    json_load (dumpSheet rows) = some rows := by
  have hle := rowsFuel_le_dumpSheet rows
  have h := parseSheetLit_dump rows (dumpSheet rows).length [] hle
  rw [List.append_nil] at h
  rw [json_load, h]
  have hnil : skipWs ([] : List Char) = [] := rfl
  simp [hnil]

end ElderlyMonitoring
